import Mathlib

/-!
# Verification of the gopherdash game loop (`main.go`)

Shallow embedding of the Bubble Tea endless-runner in `main.go`.

Modelling conventions:
* Go `int` fields become `Int`; `time.Duration` (int64 nanoseconds) becomes
  `Nat` for `frameDur` since every value it takes in this program is
  non-negative (it starts at 45ms and is only multiplied by a factor < 1).
* Timestamps (`time.Time`) become `Int` nanoseconds; `time.Now()` is passed
  in explicitly as a `now` parameter. Go's `t.After(u)` is `u < t` (strict).
* The scoped RNG is passed in as an oracle record `Rng`: `spawnRoll` stands
  for `rng.Float64() < 0.12`, `kindRoll` for `rng.Float64() < 0.5`, and
  `offset` for `rng.Intn(4)`.
* The speed ramp `time.Duration(float64(d) * 0.998)` is modelled as the
  exact product truncated to an integer, `d * 998 / 1000`; for the values
  reachable here (≤ 45e6) `float64` arithmetic agrees with this up to the
  final unit and both semantics are monotone non-increasing.
* The Bubble Tea commands returned by `Update` are reified as `Cmd`:
  `Cmd.none` for `nil`, `Cmd.tick d gen` for `tickAfter(d, gen)`, and
  `Cmd.quit` for `tea.Quit`.
* File contents for the high-score persistence are `Option (List Char)`
  (`none` = read error / missing file); `strings.TrimSpace` is modelled on
  the ASCII whitespace set, and `strconv.Atoi` with the int64 range check.
-/

namespace GopherDash

/-- Obstacle in the world grid (`obstacle` struct): horizontal logical cell
and kind tag, `"hole"` or `"rock"`. -/
structure Obstacle where
  x : Int
  typ : String
deriving DecidableEq

/-- The complete program state (`model` struct). -/
structure Model where
  w : Int
  h : Int
  gameRows : Int
  gameCols : Int
  frameDur : Nat
  tickGen : Int
  dist : Int
  playerY : Int
  velY : Int
  obstacles : List Obstacle
  highScore : Int
  gameOver : Bool
  restartAt : Int
deriving DecidableEq

/-- RNG oracle for one tick: the outcomes of the (up to) three draws the
tick handler can make. -/
structure Rng where
  spawnRoll : Bool
  kindRoll : Bool
  offset : Fin 4

/-- Reified Bubble Tea command returned by `Update`. -/
inductive Cmd where
  | none : Cmd
  | tick (d : Nat) (gen : Int) : Cmd
  | quit : Cmd
deriving DecidableEq

/-- Messages consumed by `Update` (window size, key press, generation-tagged
tick). -/
inductive Msg where
  | windowSize (w h : Int) : Msg
  | key (s : String) : Msg
  | tick (gen : Int) : Msg

/-- `startFrame = 45 * time.Millisecond` in nanoseconds. -/
def startFrame : Nat := 45000000

/-- `gameOverTick = 250 * time.Millisecond` in nanoseconds. -/
def gameOverTick : Nat := 250000000

/-- `cooldownSeconds * time.Second` in nanoseconds. -/
def cooldownNanos : Int := 2000000000

def gravity : Int := 1

def jumpVel : Int := -4

def minGapCells : Int := 4

/-- `recalcSizes`: recompute the derived grid on resize, with floors of
5 rows and 10 columns, and snap the player to the new rest height. -/
def recalcSizes (m : Model) : Model :=
  let gr0 : Int := m.h - 1 - 1 - 2 * 3
  let gr : Int := if gr0 < 5 then 5 else gr0
  let gc0 : Int := Int.tdiv (m.w - 2) 2
  let gc : Int := if gc0 < 10 then 10 else gc0
  { m with gameRows := gr, gameCols := gc, playerY := gr - 2 }

/-- `restart`: reset the run state, bump the generation and schedule the
first tick of the new run. -/
def restart (m : Model) : Model × Cmd :=
  let m1 : Model :=
    { m with dist := 0, playerY := m.gameRows - 2, velY := 0,
             obstacles := [], frameDur := startFrame, gameOver := false,
             tickGen := m.tickGen + 1 }
  (m1, Cmd.tick m1.frameDur m1.tickGen)

/-- `setGameOver`: mark the run over, set the restart cooldown deadline and
persist a new high score when beaten. -/
def setGameOver (m : Model) (now : Int) : Model :=
  let m1 : Model := { m with gameOver := true, restartAt := now + cooldownNanos }
  if m1.highScore < m1.dist then { m1 with highScore := m1.dist } else m1

/-- Physics portion of the tick: gravity, integration, clamp to rest height
(`m.velY += gravity; m.playerY += m.velY; if m.playerY >= m.gameRows-2 …`). -/
def physicsStep (m : Model) : Model :=
  let v : Int := m.velY + gravity
  let p : Int := m.playerY + v
  if m.gameRows - 2 ≤ p then
    { m with velY := 0, playerY := m.gameRows - 2 }
  else
    { m with velY := v, playerY := p }

/-- Scroll portion of the tick: decrement every obstacle and keep those at
`x ≥ -1` after the decrement. -/
def scrollObstacles (obs : List Obstacle) : List Obstacle :=
  (obs.map fun ob => { ob with x := ob.x - 1 }).filter fun ob => -1 ≤ ob.x

/-- The `furthest` scan: maximum obstacle position, `-1` when none. -/
def furthest (obs : List Obstacle) : Int :=
  obs.foldl (fun acc ob => if acc < ob.x then ob.x else acc) (-1)

/-- Spawn portion of the tick: append one obstacle at
`gameCols + rng.Intn(4)` when the furthest survivor leaves enough gap and
the spawn roll succeeds. -/
def spawnStep (m : Model) (rng : Rng) : Model :=
  if furthest m.obstacles < m.gameCols - minGapCells - 1 ∧ rng.spawnRoll = true then
    { m with obstacles := m.obstacles ++
        [{ x := m.gameCols + (rng.offset.val : Int),
           typ := if rng.kindRoll then "rock" else "hole" }] }
  else m

/-- One step of the collision loop body: an obstacle at column 2 triggers
game over via the kind-specific rest-height test. -/
def collideOne (now : Int) (acc : Model) (ob : Obstacle) : Model :=
  if ob.x = 2 then
    if ob.typ = "hole" then
      (if acc.gameRows - 2 ≤ acc.playerY then setGameOver acc now else acc)
    else if ob.typ = "rock" then
      (if acc.playerY = acc.gameRows - 2 then setGameOver acc now else acc)
    else acc
  else acc

/-- The collision loop over all obstacles. -/
def collisionStep (m : Model) (now : Int) : Model :=
  m.obstacles.foldl (collideOne now) m

/-- The gameplay part of a running tick up to (but excluding) the collision
check: distance, physics, scroll, spawn. -/
def preCollision (m : Model) (rng : Rng) : Model :=
  let m1 : Model := { m with dist := m.dist + 1 }
  let m2 : Model := physicsStep m1
  let m3 : Model := { m2 with obstacles := scrollObstacles m2.obstacles }
  spawnStep m3 rng

/-- Full gameplay step of an accepted tick in the running state, including
collision, acceleration and scheduling of the next tick. -/
def runningTick (m : Model) (rng : Rng) (now : Int) : Model × Cmd :=
  let m4 : Model := preCollision m rng
  let m5 : Model := collisionStep m4 now
  let m6 : Model := { m5 with frameDur := m5.frameDur * 998 / 1000 }
  (m6, Cmd.tick m6.frameDur m6.tickGen)

/-- The `tickMsg` branch of `Update`: stale-generation guard, game-over
refresh, degenerate-grid guard, then the gameplay step. -/
def tickUpdate (m : Model) (gen : Int) (rng : Rng) (now : Int) : Model × Cmd :=
  if gen ≠ m.tickGen then (m, Cmd.none)
  else if m.gameOver = true then (m, Cmd.tick gameOverTick m.tickGen)
  else if m.gameRows = 0 ∨ m.gameCols = 0 then (m, Cmd.tick m.frameDur m.tickGen)
  else runningTick m rng now

/-- The `Update` function of the Bubble Tea model, over reified messages. -/
def update (m : Model) (msg : Msg) (rng : Rng) (now : Int) : Model × Cmd :=
  match msg with
  | Msg.windowSize w h => (recalcSizes { m with w := w, h := h }, Cmd.none)
  | Msg.key s =>
    if s = "q" ∨ s = "ctrl+c" then (m, Cmd.quit)
    else if s = " " ∨ s = "w" then
      (if m.gameOver = true then
        (if m.restartAt < now then restart m else (m, Cmd.none))
      else if m.playerY = m.gameRows - 2 then
        ({ m with velY := jumpVel }, Cmd.none)
      else (m, Cmd.none))
    else (m, Cmd.none)
  | Msg.tick gen => tickUpdate m gen rng now

/-- Iterated accepted ticks: apply the tick handler `k` times, each time
with the generation tag that matches the current state. -/
def iterTicks (m : Model) (rngs : Nat → Rng) (now : Int) : Nat → Model
  | 0 => m
  | k + 1 =>
    (tickUpdate (iterTicks m rngs now k) (iterTicks m rngs now k).tickGen
      (rngs k) now).1

/-- A plain well-formed running state used to instantiate theorems on
concrete inputs. -/
def m0 : Model :=
  { w := 80, h := 24, gameRows := 14, gameCols := 39, frameDur := startFrame,
    tickGen := 0, dist := 0, playerY := 12, velY := 0, obstacles := [],
    highScore := 0, gameOver := false, restartAt := 0 }

/-- An RNG oracle that never spawns. -/
def rng0 : Rng := { spawnRoll := false, kindRoll := false, offset := 0 }

/-! ## Field-preservation lemmas for the tick pipeline -/

@[simp] theorem setGameOver_obstacles (m : Model) (now : Int) :
    (setGameOver m now).obstacles = m.obstacles := by
  simp only [setGameOver]; split <;> rfl

@[simp] theorem setGameOver_playerY (m : Model) (now : Int) :
    (setGameOver m now).playerY = m.playerY := by
  simp only [setGameOver]; split <;> rfl

@[simp] theorem setGameOver_gameRows (m : Model) (now : Int) :
    (setGameOver m now).gameRows = m.gameRows := by
  simp only [setGameOver]; split <;> rfl

@[simp] theorem setGameOver_gameCols (m : Model) (now : Int) :
    (setGameOver m now).gameCols = m.gameCols := by
  simp only [setGameOver]; split <;> rfl

@[simp] theorem setGameOver_frameDur (m : Model) (now : Int) :
    (setGameOver m now).frameDur = m.frameDur := by
  simp only [setGameOver]; split <;> rfl

@[simp] theorem setGameOver_tickGen (m : Model) (now : Int) :
    (setGameOver m now).tickGen = m.tickGen := by
  simp only [setGameOver]; split <;> rfl

@[simp] theorem setGameOver_velY (m : Model) (now : Int) :
    (setGameOver m now).velY = m.velY := by
  simp only [setGameOver]; split <;> rfl

@[simp] theorem setGameOver_dist (m : Model) (now : Int) :
    (setGameOver m now).dist = m.dist := by
  simp only [setGameOver]; split <;> rfl

@[simp] theorem setGameOver_gameOver (m : Model) (now : Int) :
    (setGameOver m now).gameOver = true := by
  simp only [setGameOver]; split <;> rfl

theorem collideOne_cases (now : Int) (acc : Model) (ob : Obstacle) :
    collideOne now acc ob = acc ∨ collideOne now acc ob = setGameOver acc now := by
  unfold collideOne
  repeat' split
  all_goals simp

theorem collisionFold_pres {α : Type} (now : Int) (f : Model → α)
    (hf : ∀ acc ob, f (collideOne now acc ob) = f acc) :
    ∀ (l : List Obstacle) (acc : Model), f (l.foldl (collideOne now) acc) = f acc := by
  intro l
  induction l with
  | nil => intro acc; rfl
  | cons ob t ih =>
    intro acc
    rw [List.foldl_cons, ih, hf]

@[simp] theorem collisionStep_obstacles (m : Model) (now : Int) :
    (collisionStep m now).obstacles = m.obstacles := by
  refine collisionFold_pres now (fun x => x.obstacles) ?_ m.obstacles m
  intro acc ob
  rcases collideOne_cases now acc ob with h | h <;> rw [h] <;> simp

@[simp] theorem collisionStep_playerY (m : Model) (now : Int) :
    (collisionStep m now).playerY = m.playerY := by
  refine collisionFold_pres now (fun x => x.playerY) ?_ m.obstacles m
  intro acc ob
  rcases collideOne_cases now acc ob with h | h <;> rw [h] <;> simp

@[simp] theorem collisionStep_gameRows (m : Model) (now : Int) :
    (collisionStep m now).gameRows = m.gameRows := by
  refine collisionFold_pres now (fun x => x.gameRows) ?_ m.obstacles m
  intro acc ob
  rcases collideOne_cases now acc ob with h | h <;> rw [h] <;> simp

@[simp] theorem collisionStep_gameCols (m : Model) (now : Int) :
    (collisionStep m now).gameCols = m.gameCols := by
  refine collisionFold_pres now (fun x => x.gameCols) ?_ m.obstacles m
  intro acc ob
  rcases collideOne_cases now acc ob with h | h <;> rw [h] <;> simp

@[simp] theorem collisionStep_frameDur (m : Model) (now : Int) :
    (collisionStep m now).frameDur = m.frameDur := by
  refine collisionFold_pres now (fun x => x.frameDur) ?_ m.obstacles m
  intro acc ob
  rcases collideOne_cases now acc ob with h | h <;> rw [h] <;> simp

@[simp] theorem collisionStep_tickGen (m : Model) (now : Int) :
    (collisionStep m now).tickGen = m.tickGen := by
  refine collisionFold_pres now (fun x => x.tickGen) ?_ m.obstacles m
  intro acc ob
  rcases collideOne_cases now acc ob with h | h <;> rw [h] <;> simp

@[simp] theorem physicsStep_gameOver (m : Model) :
    (physicsStep m).gameOver = m.gameOver := by
  simp only [physicsStep]; split <;> rfl

@[simp] theorem physicsStep_obstacles (m : Model) :
    (physicsStep m).obstacles = m.obstacles := by
  simp only [physicsStep]; split <;> rfl

@[simp] theorem physicsStep_gameRows (m : Model) :
    (physicsStep m).gameRows = m.gameRows := by
  simp only [physicsStep]; split <;> rfl

@[simp] theorem physicsStep_gameCols (m : Model) :
    (physicsStep m).gameCols = m.gameCols := by
  simp only [physicsStep]; split <;> rfl

@[simp] theorem physicsStep_frameDur (m : Model) :
    (physicsStep m).frameDur = m.frameDur := by
  simp only [physicsStep]; split <;> rfl

@[simp] theorem physicsStep_tickGen (m : Model) :
    (physicsStep m).tickGen = m.tickGen := by
  simp only [physicsStep]; split <;> rfl

@[simp] theorem physicsStep_dist (m : Model) :
    (physicsStep m).dist = m.dist := by
  simp only [physicsStep]; split <;> rfl

/-- After the physics clamp the character is never below rest height. -/
theorem physicsStep_playerY_le (m : Model) :
    (physicsStep m).playerY ≤ m.gameRows - 2 := by
  simp only [physicsStep]
  split
  · exact le_refl _
  · next h => simp only []; omega

@[simp] theorem spawnStep_gameOver (m : Model) (rng : Rng) :
    (spawnStep m rng).gameOver = m.gameOver := by
  simp only [spawnStep]; split <;> rfl

@[simp] theorem spawnStep_playerY (m : Model) (rng : Rng) :
    (spawnStep m rng).playerY = m.playerY := by
  simp only [spawnStep]; split <;> rfl

@[simp] theorem spawnStep_gameRows (m : Model) (rng : Rng) :
    (spawnStep m rng).gameRows = m.gameRows := by
  simp only [spawnStep]; split <;> rfl

@[simp] theorem spawnStep_gameCols (m : Model) (rng : Rng) :
    (spawnStep m rng).gameCols = m.gameCols := by
  simp only [spawnStep]; split <;> rfl

@[simp] theorem spawnStep_frameDur (m : Model) (rng : Rng) :
    (spawnStep m rng).frameDur = m.frameDur := by
  simp only [spawnStep]; split <;> rfl

@[simp] theorem spawnStep_tickGen (m : Model) (rng : Rng) :
    (spawnStep m rng).tickGen = m.tickGen := by
  simp only [spawnStep]; split <;> rfl

@[simp] theorem preCollision_gameOver (m : Model) (rng : Rng) :
    (preCollision m rng).gameOver = m.gameOver := by
  unfold preCollision; simp

@[simp] theorem preCollision_gameRows (m : Model) (rng : Rng) :
    (preCollision m rng).gameRows = m.gameRows := by
  unfold preCollision; simp

@[simp] theorem preCollision_gameCols (m : Model) (rng : Rng) :
    (preCollision m rng).gameCols = m.gameCols := by
  unfold preCollision; simp

@[simp] theorem preCollision_frameDur (m : Model) (rng : Rng) :
    (preCollision m rng).frameDur = m.frameDur := by
  unfold preCollision; simp

@[simp] theorem preCollision_tickGen (m : Model) (rng : Rng) :
    (preCollision m rng).tickGen = m.tickGen := by
  unfold preCollision; simp

/-- At the collision check point the character is never below rest height. -/
theorem preCollision_playerY_le (m : Model) (rng : Rng) :
    (preCollision m rng).playerY ≤ (preCollision m rng).gameRows - 2 := by
  unfold preCollision
  simp only [spawnStep_playerY, spawnStep_gameRows, physicsStep_gameRows]
  exact physicsStep_playerY_le _

/-- A clamped `if` written the way the source writes it equals `max`. -/
theorem ite_lt_eq_max (a b : Int) : (if a < b then b else a) = max a b := by
  rcases lt_or_ge a b with h | h
  · rw [if_pos h, max_eq_right h.le]
  · rw [if_neg (not_lt.mpr h), max_eq_left h]

/-! ## Claim theorems -/

/-- Claim C1: a tick message whose generation tag differs from the model's
current generation leaves the state completely unchanged and schedules no
further tick. -/
theorem stale_tick_ignored (m : Model) (gen : Int) (rng : Rng) (now : Int)
    (h : gen ≠ m.tickGen) :
    update m (Msg.tick gen) rng now = (m, Cmd.none) := by
  unfold update tickUpdate
  simp [h]

theorem stale_tick_ignored_witness :
    update m0 (Msg.tick 1) rng0 0 = (m0, Cmd.none) :=
  stale_tick_ignored m0 1 rng0 0 (by decide)

/-- Claim C10: a generation-matching tick received while the game is over
changes no state field and schedules the next tick at the fixed game-over
period of 250ms (250000000ns), not at `frameDur`. -/
theorem gameover_tick_spec (m : Model) (rng : Rng) (now : Int)
    (h : m.gameOver = true) :
    update m (Msg.tick m.tickGen) rng now = (m, Cmd.tick 250000000 m.tickGen) := by
  unfold update tickUpdate
  simp [h, gameOverTick]

theorem gameover_tick_spec_witness :
    update { m0 with gameOver := true } (Msg.tick 0) rng0 7
      = ({ m0 with gameOver := true }, Cmd.tick 250000000 0) :=
  gameover_tick_spec { m0 with gameOver := true } rng0 7 rfl

/-- Claim C3: an accepted restart from the game-over state resets distance
to 0, clears the obstacles, resets the frame interval to the initial 45ms
(45000000ns), increments the generation by exactly 1, clears `gameOver`,
and resets velocity to 0 and the player to rest height. -/
theorem restart_resets (m : Model) (s : String) (rng : Rng) (now : Int)
    (hkey : s = " " ∨ s = "w") (hover : m.gameOver = true)
    (hcool : m.restartAt < now) :
    (update m (Msg.key s) rng now).1.dist = 0 ∧
    (update m (Msg.key s) rng now).1.obstacles = [] ∧
    (update m (Msg.key s) rng now).1.frameDur = 45000000 ∧
    (update m (Msg.key s) rng now).1.tickGen = m.tickGen + 1 ∧
    (update m (Msg.key s) rng now).1.gameOver = false ∧
    (update m (Msg.key s) rng now).1.velY = 0 ∧
    (update m (Msg.key s) rng now).1.playerY = m.gameRows - 2 := by
  have hs1 : ¬(s = "q" ∨ s = "ctrl+c") := by
    rcases hkey with h | h <;> subst h <;> decide
  simp only [update]
  rw [if_neg hs1, if_pos hkey, if_pos hover, if_pos hcool]
  unfold restart startFrame
  exact ⟨rfl, rfl, rfl, rfl, rfl, rfl, rfl⟩

theorem restart_resets_witness :
    (update { m0 with gameOver := true } (Msg.key " ") rng0 5).1.gameOver = false ∧
    (update { m0 with gameOver := true } (Msg.key " ") rng0 5).1.tickGen = 1 :=
  ⟨(restart_resets { m0 with gameOver := true } " " rng0 5 (Or.inl rfl) rfl
      (by decide)).2.2.2.2.1,
   (restart_resets { m0 with gameOver := true } " " rng0 5 (Or.inl rfl) rfl
      (by decide)).2.2.2.1⟩

/-- Counterexample to claim C4: with the cooldown deadline `restartAt = 5`
and the current time exactly 5 (so `now ≥ restartAt` holds), a jump input
during game over does NOT restart: the state is returned unchanged and the
game stays over, because the source tests `time.Now().After(m.restartAt)`,
which is strict. -/
theorem restart_boundary_cex :
    ({ m0 with gameOver := true, restartAt := 5 } : Model).restartAt ≤ 5 ∧
    (update { m0 with gameOver := true, restartAt := 5 } (Msg.key " ") rng0 5).1
      = { m0 with gameOver := true, restartAt := 5 } ∧
    (update { m0 with gameOver := true, restartAt := 5 } (Msg.key " ") rng0 5).1.gameOver
      = true := by
  decide

/-- Claim C4 (amended): in the game-over state a jump input performs the
full restart if and only if the current time is strictly after
`restartAt`; at or before `restartAt` it changes no state field and
schedules nothing. -/
theorem gameover_jump_iff (m : Model) (s : String) (rng : Rng) (now : Int)
    (hkey : s = " " ∨ s = "w") (hover : m.gameOver = true) :
    update m (Msg.key s) rng now
      = if m.restartAt < now then restart m else (m, Cmd.none) := by
  have hs1 : ¬(s = "q" ∨ s = "ctrl+c") := by
    rcases hkey with h | h <;> subst h <;> decide
  simp only [update]
  rw [if_neg hs1, if_pos hkey, if_pos hover]

theorem gameover_jump_iff_witness :
    (update { m0 with gameOver := true, restartAt := 5 } (Msg.key "w") rng0 6).1.gameOver
      = false := by
  rw [gameover_jump_iff { m0 with gameOver := true, restartAt := 5 } "w" rng0 6
    (Or.inr rfl) rfl]
  decide

/-- Counterexample to claim C5: a resize while the character is airborne
(playerY = 3, rest height 12) does NOT leave the current player height
unchanged — `recalcSizes` snaps the player back to the new rest height. -/
theorem resize_playerY_cex :
    (update { m0 with playerY := 3 } (Msg.windowSize 80 24) rng0 0).1.playerY
      ≠ ({ m0 with playerY := 3 } : Model).playerY := by
  decide

/-- Claim C5 (amended): a resize input recomputes only the derived grid
layout — rows = max (h-8) 5, cols = max ((w-2)/2) 10 (floors of 5 rows and
10 cols) — and resets the player height to the new rest height rows-2; the
remaining run-state fields (distance, vertical velocity, obstacles,
frameInterval, generation, isOver, restartEligibleAt, highScore) are
unchanged and no tick is scheduled. -/
theorem resize_spec (m : Model) (w h : Int) (rng : Rng) (now : Int) :
    (update m (Msg.windowSize w h) rng now).2 = Cmd.none ∧
    (update m (Msg.windowSize w h) rng now).1.dist = m.dist ∧
    (update m (Msg.windowSize w h) rng now).1.velY = m.velY ∧
    (update m (Msg.windowSize w h) rng now).1.obstacles = m.obstacles ∧
    (update m (Msg.windowSize w h) rng now).1.frameDur = m.frameDur ∧
    (update m (Msg.windowSize w h) rng now).1.tickGen = m.tickGen ∧
    (update m (Msg.windowSize w h) rng now).1.gameOver = m.gameOver ∧
    (update m (Msg.windowSize w h) rng now).1.restartAt = m.restartAt ∧
    (update m (Msg.windowSize w h) rng now).1.highScore = m.highScore ∧
    (update m (Msg.windowSize w h) rng now).1.gameRows = max (h - 8) 5 ∧
    (update m (Msg.windowSize w h) rng now).1.gameCols = max (Int.tdiv (w - 2) 2) 10 ∧
    (update m (Msg.windowSize w h) rng now).1.playerY = max (h - 8) 5 - 2 := by
  have e : (h - 1 - 1 - 2 * 3 : Int) = h - 8 := by ring
  have hu : update m (Msg.windowSize w h) rng now
      = (recalcSizes { m with w := w, h := h }, Cmd.none) := rfl
  rw [hu]
  refine ⟨rfl, rfl, rfl, rfl, rfl, rfl, rfl, rfl, rfl, ?_, ?_, ?_⟩
  · show (if h - 1 - 1 - 2 * 3 < 5 then (5 : Int) else h - 1 - 1 - 2 * 3) = max (h - 8) 5
    rw [e, ite_lt_eq_max]
  · show (if Int.tdiv (w - 2) 2 < 10 then (10 : Int) else Int.tdiv (w - 2) 2)
      = max (Int.tdiv (w - 2) 2) 10
    rw [ite_lt_eq_max]
  · show (if h - 1 - 1 - 2 * 3 < 5 then (5 : Int) else h - 1 - 1 - 2 * 3) - 2
      = max (h - 8) 5 - 2
    rw [e, ite_lt_eq_max]

/-- Claim C6: while running, a jump input sets the vertical velocity to the
fixed impulse -4 exactly when the character is at rest height, and is a
complete no-op while airborne (no double jump); no tick is scheduled. -/
theorem jump_only_at_rest (m : Model) (s : String) (rng : Rng) (now : Int)
    (hkey : s = " " ∨ s = "w") (hover : m.gameOver = false) :
    update m (Msg.key s) rng now
      = (if m.playerY = m.gameRows - 2 then { m with velY := -4 } else m, Cmd.none) := by
  have hs1 : ¬(s = "q" ∨ s = "ctrl+c") := by
    rcases hkey with h | h <;> subst h <;> decide
  have hov : ¬(m.gameOver = true) := by simp [hover]
  simp only [update]
  rw [if_neg hs1, if_pos hkey, if_neg hov]
  by_cases hp : m.playerY = m.gameRows - 2 <;> simp [hp, jumpVel]

/-- The exact per-obstacle hit condition of the collision loop. -/
def hitP (acc : Model) (ob : Obstacle) : Prop :=
  ob.x = 2 ∧ ((ob.typ = "hole" ∧ acc.gameRows - 2 ≤ acc.playerY)
    ∨ (ob.typ = "rock" ∧ acc.playerY = acc.gameRows - 2))

theorem collideOne_gameOver_iff (now : Int) (acc : Model) (ob : Obstacle) :
    ((collideOne now acc ob).gameOver = true)
      ↔ (acc.gameOver = true ∨ hitP acc ob) := by
  have hhr : ¬(("hole" : String) = "rock") := by decide
  unfold collideOne hitP
  repeat' split
  all_goals simp_all

theorem collisionFold_gameOver (now : Int) :
    ∀ (l : List Obstacle) (acc : Model),
      ((l.foldl (collideOne now) acc).gameOver = true)
        ↔ (acc.gameOver = true ∨ ∃ ob ∈ l, hitP acc ob) := by
  intro l
  induction l with
  | nil => intro acc; simp
  | cons ob t ih =>
    intro acc
    have hpres : ∀ ob', hitP (collideOne now acc ob) ob' ↔ hitP acc ob' := by
      intro ob'
      unfold hitP
      rcases collideOne_cases now acc ob with h | h <;> rw [h] <;> simp
    rw [List.foldl_cons, ih (collideOne now acc ob), collideOne_gameOver_iff]
    simp only [hpres, List.mem_cons]
    constructor
    · rintro ((h | h) | ⟨ob', hmem, hp⟩)
      · exact Or.inl h
      · exact Or.inr ⟨ob, Or.inl rfl, h⟩
      · exact Or.inr ⟨ob', Or.inr hmem, hp⟩
    · rintro (h | ⟨ob', hmem | hmem, hp⟩)
      · exact Or.inl (Or.inl h)
      · exact Or.inl (Or.inr (hmem ▸ hp))
      · exact Or.inr ⟨ob', hmem, hp⟩

theorem collisionStep_gameOver_iff (m : Model) (now : Int) :
    ((collisionStep m now).gameOver = true)
      ↔ (m.gameOver = true ∨ ∃ ob ∈ m.obstacles, hitP m ob) :=
  collisionFold_gameOver now m.obstacles m

/-- Claim C2: on an accepted running tick, an obstacle of either kind whose
post-scroll position is the detection column 2 triggers the transition to
game over exactly when the character is at rest height at that tick; while
airborne neither kind triggers, and the two kinds obey the same rule.
`preCollision m rng` is the state at the collision-check point of the tick
(after the distance, physics, scroll and spawn sub-steps). -/
theorem collision_iff_rest_height (m : Model) (rng : Rng) (now : Int)
    (hg : m.gameOver = false) (hr : m.gameRows ≠ 0) (hc : m.gameCols ≠ 0) :
    ((update m (Msg.tick m.tickGen) rng now).1.gameOver = true
      ↔ ∃ ob ∈ (preCollision m rng).obstacles, ob.x = 2
          ∧ (ob.typ = "hole" ∨ ob.typ = "rock")
          ∧ (preCollision m rng).playerY = (preCollision m rng).gameRows - 2) := by
  have hstep : update m (Msg.tick m.tickGen) rng now = runningTick m rng now := by
    unfold update tickUpdate
    simp [hg, hr, hc]
  rw [hstep]
  have h1 : (runningTick m rng now).1.gameOver
      = (collisionStep (preCollision m rng) now).gameOver := rfl
  rw [h1, collisionStep_gameOver_iff]
  have h3 := preCollision_playerY_le m rng
  simp only [preCollision_gameOver, hg, Bool.false_eq_true, false_or]
  unfold hitP
  constructor
  · rintro ⟨ob, hmem, hx, ⟨ht, hle⟩ | ⟨ht, heq⟩⟩
    · exact ⟨ob, hmem, hx, Or.inl ht, by omega⟩
    · exact ⟨ob, hmem, hx, Or.inr ht, heq⟩
  · rintro ⟨ob, hmem, hx, ht | ht, heq⟩
    · exact ⟨ob, hmem, hx, Or.inl ⟨ht, by omega⟩⟩
    · exact ⟨ob, hmem, hx, Or.inr ⟨ht, heq⟩⟩

theorem collision_iff_rest_height_witness :
    (update { m0 with obstacles := [{ x := 3, typ := "rock" }] }
        (Msg.tick 0) rng0 0).1.gameOver = true := by
  have h := collision_iff_rest_height
    { m0 with obstacles := [{ x := 3, typ := "rock" }] } rng0 0 rfl
    (by decide) (by decide)
  exact h.mpr (by decide)

/-- The obstacle list after the pre-collision pipeline: the scrolled
survivors, plus at most one spawned obstacle. -/
theorem preCollision_obstacles (m : Model) (rng : Rng) :
    (preCollision m rng).obstacles
      = scrollObstacles m.obstacles ++
        (if furthest (scrollObstacles m.obstacles) < m.gameCols - minGapCells - 1
            ∧ rng.spawnRoll = true
         then [{ x := m.gameCols + (rng.offset.val : Int),
                 typ := if rng.kindRoll then "rock" else "hole" }] else []) := by
  unfold preCollision spawnStep
  simp only [physicsStep_obstacles, physicsStep_gameCols]
  split <;> simp

theorem tickUpdate_gameRows (m : Model) (gen : Int) (rng : Rng) (now : Int) :
    (tickUpdate m gen rng now).1.gameRows = m.gameRows := by
  unfold tickUpdate
  repeat' split
  · rfl
  · rfl
  · rfl
  · show (collisionStep (preCollision m rng) now).gameRows = m.gameRows
    rw [collisionStep_gameRows, preCollision_gameRows]

theorem tickUpdate_gameCols (m : Model) (gen : Int) (rng : Rng) (now : Int) :
    (tickUpdate m gen rng now).1.gameCols = m.gameCols := by
  unfold tickUpdate
  repeat' split
  · rfl
  · rfl
  · rfl
  · show (collisionStep (preCollision m rng) now).gameCols = m.gameCols
    rw [collisionStep_gameCols, preCollision_gameCols]

theorem iterTicks_gameRows (m : Model) (rngs : Nat → Rng) (now : Int) :
    ∀ k, (iterTicks m rngs now k).gameRows = m.gameRows := by
  intro k
  induction k with
  | zero => rfl
  | succ k ih => rw [iterTicks, tickUpdate_gameRows, ih]

theorem iterTicks_gameCols (m : Model) (rngs : Nat → Rng) (now : Int) :
    ∀ k, (iterTicks m rngs now k).gameCols = m.gameCols := by
  intro k
  induction k with
  | zero => rfl
  | succ k ih => rw [iterTicks, tickUpdate_gameCols, ih]

/-- Membership characterization of the scroll step: exactly the decremented
obstacles that survive the `-1` threshold. -/
theorem scroll_mem_iff (l : List Obstacle) (ob' : Obstacle) :
    ob' ∈ scrollObstacles l
      ↔ ∃ ob ∈ l, ob'.x = ob.x - 1 ∧ ob'.typ = ob.typ ∧ -1 ≤ ob'.x := by
  unfold scrollObstacles
  rw [List.mem_filter, List.mem_map]
  constructor
  · rintro ⟨⟨ob, hmem, rfl⟩, hkeep⟩
    exact ⟨ob, hmem, rfl, rfl, by simpa using hkeep⟩
  · rintro ⟨ob, hmem, hx, ht, hge⟩
    refine ⟨⟨ob, hmem, ?_⟩, by simpa using hge⟩
    cases ob' with
    | mk x' t' =>
      cases ob with
      | mk x t => simp_all

/-- An obstacle that stays far enough to the right survives each accepted
running tick, its position decremented once per tick. -/
theorem iter_reach (m : Model) (rngs : Nat → Rng) (now : Int) (k : Nat)
    (hr : m.gameRows ≠ 0) (hc : m.gameCols ≠ 0)
    (hgo : ∀ j, j < k → (iterTicks m rngs now j).gameOver = false)
    (ob : Obstacle) (hob : ob ∈ m.obstacles) (hx : ob.x = 2 + (k : Int)) :
    ∀ j, j ≤ k →
      ({ x := ob.x - (j : Int), typ := ob.typ } : Obstacle)
        ∈ (iterTicks m rngs now j).obstacles := by
  intro j
  induction j with
  | zero =>
    intro _
    simpa using hob
  | succ j ih =>
    intro hjk
    have hmem := ih (by omega)
    have hrj : (iterTicks m rngs now j).gameRows ≠ 0 := by
      rw [iterTicks_gameRows]; exact hr
    have hcj : (iterTicks m rngs now j).gameCols ≠ 0 := by
      rw [iterTicks_gameCols]; exact hc
    have hgoj : (iterTicks m rngs now j).gameOver = false := hgo j (by omega)
    have h2 : iterTicks m rngs now (j + 1)
        = (runningTick (iterTicks m rngs now j) (rngs j) now).1 := by
      rw [iterTicks]
      unfold tickUpdate
      simp [hgoj, hrj, hcj]
    rw [h2]
    have h3 : (runningTick (iterTicks m rngs now j) (rngs j) now).1.obstacles
        = (preCollision (iterTicks m rngs now j) (rngs j)).obstacles := by
      show (collisionStep (preCollision (iterTicks m rngs now j) (rngs j)) now).obstacles
        = _
      rw [collisionStep_obstacles]
    have h4 : ob.x - ((j : Int) + 1) = ob.x - (j : Int) - 1 := by ring
    have h5 : (((j + 1 : Nat)) : Int) = (j : Int) + 1 := by push_cast; ring
    have hscroll : ({ x := ob.x - (j : Int) - 1, typ := ob.typ } : Obstacle)
        ∈ scrollObstacles (iterTicks m rngs now j).obstacles := by
      rw [scroll_mem_iff]
      refine ⟨{ x := ob.x - (j : Int), typ := ob.typ }, hmem, by simp, rfl, ?_⟩
      show (-1 : Int) ≤ ob.x - (j : Int) - 1
      omega
    show _ ∈ (runningTick (iterTicks m rngs now j) (rngs j) now).1.obstacles
    rw [h3, preCollision_obstacles]
    simp only [h5, h4]
    exact List.mem_append_left _ hscroll

/-- Claim C7: on an accepted running tick every obstacle's position drops by
exactly 1 and it is kept iff the decremented position is at least -1; at
most one obstacle is appended, at a position between `gameCols` and
`gameCols + 3`, only when the furthest survivor is left of
`gameCols - minGapCells - 1`; the existing positions are never otherwise
changed — hence an obstacle at position `2 + k` is at the detection column 2
after exactly `k` accepted running ticks. -/
theorem obstacle_step_spec :
    (∀ (m : Model) (rng : Rng) (now : Int),
      m.gameOver = false → m.gameRows ≠ 0 → m.gameCols ≠ 0 →
      ((update m (Msg.tick m.tickGen) rng now).1.obstacles
          = scrollObstacles m.obstacles ++
            (if furthest (scrollObstacles m.obstacles) < m.gameCols - minGapCells - 1
                ∧ rng.spawnRoll = true
             then [{ x := m.gameCols + (rng.offset.val : Int),
                     typ := if rng.kindRoll then "rock" else "hole" }] else [])
        ∧ (∀ ob', ob' ∈ scrollObstacles m.obstacles
            ↔ ∃ ob ∈ m.obstacles, ob'.x = ob.x - 1 ∧ ob'.typ = ob.typ ∧ -1 ≤ ob'.x)
        ∧ m.gameCols ≤ m.gameCols + (rng.offset.val : Int)
        ∧ m.gameCols + (rng.offset.val : Int) ≤ m.gameCols + 3))
    ∧ (∀ (m : Model) (rngs : Nat → Rng) (now : Int) (k : Nat) (ob : Obstacle),
        m.gameRows ≠ 0 → m.gameCols ≠ 0 →
        (∀ j, j < k → (iterTicks m rngs now j).gameOver = false) →
        ob ∈ m.obstacles → ob.x = 2 + (k : Int) →
        ({ x := 2, typ := ob.typ } : Obstacle) ∈ (iterTicks m rngs now k).obstacles) := by
  constructor
  · intro m rng now hg hr hc
    have hstep : update m (Msg.tick m.tickGen) rng now = runningTick m rng now := by
      unfold update tickUpdate
      simp [hg, hr, hc]
    refine ⟨?_, fun ob' => scroll_mem_iff m.obstacles ob', ?_, ?_⟩
    · rw [hstep]
      have h3 : (runningTick m rng now).1.obstacles = (preCollision m rng).obstacles := by
        show (collisionStep (preCollision m rng) now).obstacles = _
        rw [collisionStep_obstacles]
      rw [h3, preCollision_obstacles]
    · have := rng.offset.isLt
      omega
    · have := rng.offset.isLt
      omega
  · intro m rngs now k ob hr hc hgo hob hx
    have h := iter_reach m rngs now k hr hc hgo ob hob hx k (le_refl k)
    have h2 : ob.x - (k : Int) = 2 := by omega
    rw [h2] at h
    exact h

/-- A small running state with one approaching obstacle, two ticks from the
detection column. -/
def mReach : Model :=
  { m0 with gameRows := 5, gameCols := 10, playerY := 3,
            obstacles := [{ x := 4, typ := "rock" }] }

theorem obstacle_step_spec_witness :
    (update { m0 with obstacles := [{ x := 7, typ := "hole" }] }
        (Msg.tick 0) rng0 0).1.obstacles = [{ x := 6, typ := "hole" }] ∧
    ({ x := 2, typ := "rock" } : Obstacle)
      ∈ (iterTicks mReach (fun _ => rng0) 0 2).obstacles := by
  constructor
  · have h := (obstacle_step_spec.1 { m0 with obstacles := [{ x := 7, typ := "hole" }] }
      rng0 0 rfl (by decide) (by decide)).1
    exact h.trans (by decide)
  · exact obstacle_step_spec.2 mReach (fun _ => rng0) 0 2 { x := 4, typ := "rock" }
      (by decide) (by decide) (by decide) (by decide) (by decide)

/-- Claim C8: the frame interval never increases on any tick message, on an
accepted running tick it is exactly the truncated product with the
acceleration factor (no floor clamp), and for every positive value that
product is strictly smaller — so the interval decreases without lower
bound. -/
theorem frame_interval_monotone (m : Model) (gen : Int) (rng : Rng) (now : Int) :
    (update m (Msg.tick gen) rng now).1.frameDur ≤ m.frameDur ∧
    (gen = m.tickGen → m.gameOver = false → m.gameRows ≠ 0 → m.gameCols ≠ 0 →
      (update m (Msg.tick gen) rng now).1.frameDur = m.frameDur * 998 / 1000) ∧
    (0 < m.frameDur → m.frameDur * 998 / 1000 < m.frameDur) := by
  refine ⟨?_, ?_, ?_⟩
  · by_cases hgen : gen = m.tickGen
    · by_cases hg : m.gameOver = true
      · have heq : update m (Msg.tick gen) rng now
            = (m, Cmd.tick gameOverTick m.tickGen) := by
          unfold update tickUpdate; subst hgen; simp [hg]
        rw [heq]
      · have hg' : m.gameOver = false := by revert hg; cases m.gameOver <;> simp
        by_cases hz : m.gameRows = 0 ∨ m.gameCols = 0
        · have heq : update m (Msg.tick gen) rng now
              = (m, Cmd.tick m.frameDur m.tickGen) := by
            unfold update tickUpdate; subst hgen; simp [hg', hz]
          rw [heq]
        · have heq : update m (Msg.tick gen) rng now = runningTick m rng now := by
            unfold update tickUpdate; subst hgen; simp [hg', hz]
          rw [heq]
          show (collisionStep (preCollision m rng) now).frameDur * 998 / 1000
            ≤ m.frameDur
          rw [collisionStep_frameDur, preCollision_frameDur]
          omega
    · have heq : update m (Msg.tick gen) rng now = (m, Cmd.none) := by
        unfold update tickUpdate; simp [hgen]
      rw [heq]
  · intro hgen hg hr hc
    subst hgen
    have heq : update m (Msg.tick m.tickGen) rng now = runningTick m rng now := by
      unfold update tickUpdate; simp [hg, hr, hc]
    rw [heq]
    show (collisionStep (preCollision m rng) now).frameDur * 998 / 1000
      = m.frameDur * 998 / 1000
    rw [collisionStep_frameDur, preCollision_frameDur]
  · intro hpos; omega

theorem frame_interval_monotone_witness :
    (update m0 (Msg.tick 0) rng0 0).1.frameDur = 45000000 * 998 / 1000 ∧
    45000000 * 998 / 1000 < 45000000 :=
  ⟨(frame_interval_monotone m0 0 rng0 0).2.1 rfl rfl (by decide) (by decide),
   (frame_interval_monotone m0 0 rng0 0).2.2 (by decide)⟩

theorem jump_only_at_rest_witness :
    (update m0 (Msg.key "w") rng0 0).1.velY = -4 ∧
    (update { m0 with playerY := 3 } (Msg.key " ") rng0 0).1
      = { m0 with playerY := 3 } := by
  constructor
  · rw [jump_only_at_rest m0 "w" rng0 0 (Or.inr rfl) rfl]
    decide
  · rw [jump_only_at_rest { m0 with playerY := 3 } " " rng0 0 (Or.inl rfl) rfl]
    decide

/-! ## High-score persistence (`loadHighScore` / `saveHighScore`)

The file system is abstracted to the file's content: `Option (List Char)`,
with `none` standing for any read error (missing or unreadable file). -/

/-- ASCII model of Go's `unicode.IsSpace` as used by `strings.TrimSpace`
(space, TAB, LF, VT, FF, CR; the content written by `saveHighScore` is
digits only, so the non-ASCII space characters never arise there). -/
def isSpace (c : Char) : Bool :=
  c = ' ' || c = Char.ofNat 9 || c = Char.ofNat 10 || c = Char.ofNat 11 ||
  c = Char.ofNat 12 || c = Char.ofNat 13

/-- `strings.TrimSpace`: drop whitespace from both ends. -/
def trimSpace (s : List Char) : List Char :=
  ((s.dropWhile isSpace).reverse.dropWhile isSpace).reverse

/-- One decimal digit as read by `strconv`'s parser. -/
def digitVal (c : Char) : Option Nat :=
  if '0' ≤ c ∧ c ≤ '9' then some (c.toNat - 48) else none

/-- Digit-by-digit accumulation of `strconv`'s unsigned parse, failing on
the first non-digit. -/
def parseDigits : List Char → Nat → Option Nat
  | [], acc => some acc
  | c :: cs, acc =>
    match digitVal c with
    | some d => parseDigits cs (acc * 10 + d)
    | none => none

/-- Magnitude parser: at least one digit required. -/
def parseMagnitude (l : List Char) : Option Nat :=
  match l with
  | [] => none
  | _ :: _ => parseDigits l 0

/-- `math.MaxInt64`, the positive cutoff of `strconv.Atoi` on a 64-bit
platform (`2^63 - 1`). -/
def maxInt64 : Nat := 9223372036854775807

/-- `strconv.Atoi`: optional sign, decimal digits, int64 range check
(negative magnitudes may reach `2^63`). -/
def atoi (s : List Char) : Option Int :=
  match s with
  | [] => none
  | c :: rest =>
    if c = '-' then
      match parseMagnitude rest with
      | some v => if v ≤ maxInt64 + 1 then some (-(v : Int)) else none
      | none => none
    else if c = '+' then
      match parseMagnitude rest with
      | some v => if v ≤ maxInt64 then some ((v : Int)) else none
      | none => none
    else
      match parseMagnitude (c :: rest) with
      | some v => if v ≤ maxInt64 then some ((v : Int)) else none
      | none => none

/-- `loadHighScore`: 0 on read failure, parse failure or negative value. -/
def loadHighScore (file : Option (List Char)) : Int :=
  match file with
  | Option.none => 0
  | Option.some data =>
    match atoi (trimSpace data) with
    | Option.none => 0
    | Option.some s => if s < 0 then 0 else s

/-- Decimal digits of `n`, most significant first (the digit string
`strconv.Itoa` produces for a non-negative value). -/
def natDigitsBE (n : Nat) : List Char :=
  if h : n < 10 then [Char.ofNat (48 + n)]
  else natDigitsBE (n / 10) ++ [Char.ofNat (48 + n % 10)]
decreasing_by exact Nat.div_lt_self (by omega) (by omega)

/-- `strconv.Itoa`. -/
def itoa (n : Int) : List Char :=
  if n < 0 then '-' :: natDigitsBE (-n).toNat else natDigitsBE n.toNat

/-- `saveHighScore`: the file content written for a score. -/
def saveHighScore (score : Int) : List Char := itoa score

theorem parseDigits_append (l1 l2 : List Char) :
    ∀ acc, parseDigits (l1 ++ l2) acc
      = match parseDigits l1 acc with
        | some v => parseDigits l2 v
        | none => none := by
  induction l1 with
  | nil => intro acc; rfl
  | cons c cs ih =>
    intro acc
    show parseDigits (c :: (cs ++ l2)) acc = _
    cases hd : digitVal c with
    | some d => simp [parseDigits, hd, ih]
    | none => simp [parseDigits, hd]

theorem digitVal_ofNat : ∀ d : Nat, d < 10 →
    digitVal (Char.ofNat (48 + d)) = some d := by decide

theorem digit_props : ∀ d : Nat, d < 10 →
    isSpace (Char.ofNat (48 + d)) = false
      ∧ Char.ofNat (48 + d) ≠ '-' ∧ Char.ofNat (48 + d) ≠ '+' := by decide

theorem natDigitsBE_ne_nil (n : Nat) : natDigitsBE n ≠ [] := by
  rw [natDigitsBE]
  split
  · simp
  · simp

theorem natDigitsBE_mem (n : Nat) :
    ∀ c ∈ natDigitsBE n, ∃ d, d < 10 ∧ c = Char.ofNat (48 + d) := by
  induction n using Nat.strong_induction_on with
  | _ n ih =>
    rw [natDigitsBE]
    split
    · next h =>
      intro c hc
      simp only [List.mem_singleton] at hc
      exact ⟨n, h, hc⟩
    · next h =>
      intro c hc
      rw [List.mem_append] at hc
      rcases hc with hc | hc
      · exact ih (n / 10) (Nat.div_lt_self (by omega) (by omega)) c hc
      · simp only [List.mem_singleton] at hc
        exact ⟨n % 10, Nat.mod_lt _ (by omega), hc⟩

theorem parseDigits_natDigitsBE (n : Nat) :
    ∀ acc, parseDigits (natDigitsBE n) acc
      = some (acc * 10 ^ (natDigitsBE n).length + n) := by
  induction n using Nat.strong_induction_on with
  | _ n ih =>
    intro acc
    by_cases h : n < 10
    · rw [natDigitsBE, dif_pos h]
      simp [parseDigits, digitVal_ofNat n h]
    · rw [natDigitsBE, dif_neg h]
      rw [parseDigits_append]
      rw [ih (n / 10) (Nat.div_lt_self (by omega) (by omega)) acc]
      show parseDigits [Char.ofNat (48 + n % 10)]
          (acc * 10 ^ (natDigitsBE (n / 10)).length + n / 10) = _
      simp only [parseDigits, digitVal_ofNat (n % 10) (Nat.mod_lt _ (by omega))]
      rw [List.length_append, List.length_singleton, pow_succ]
      have hmod : n / 10 * 10 + n % 10 = n := by omega
      have expand : (acc * 10 ^ (natDigitsBE (n / 10)).length + n / 10) * 10 + n % 10
          = acc * (10 ^ (natDigitsBE (n / 10)).length * 10) + (n / 10 * 10 + n % 10) := by
        ring
      rw [expand, hmod]

theorem dropWhile_eq_self_of_not (p : Char → Bool) (l : List Char)
    (h : ∀ c ∈ l, p c = false) : l.dropWhile p = l := by
  cases l with
  | nil => rfl
  | cons c t => simp [List.dropWhile, h c (by simp)]

theorem dropWhile_append_all (p : Char → Bool) (a b : List Char)
    (h : ∀ c ∈ a, p c = true) : (a ++ b).dropWhile p = b.dropWhile p := by
  induction a with
  | nil => rfl
  | cons c t ih =>
    rw [List.cons_append]
    rw [show (c :: (t ++ b)).dropWhile p = (t ++ b).dropWhile p from by
      simp [List.dropWhile, h c (by simp)]]
    exact ih (fun x hx => h x (by simp [hx]))

theorem trimSpace_eq_self (l : List Char) (h : ∀ c ∈ l, isSpace c = false) :
    trimSpace l = l := by
  unfold trimSpace
  rw [dropWhile_eq_self_of_not _ _ h,
    dropWhile_eq_self_of_not _ _ (fun c hc => h c (List.mem_reverse.mp hc)),
    List.reverse_reverse]

theorem trimSpace_sandwich (ws1 ws2 core : List Char)
    (h1 : ∀ c ∈ ws1, isSpace c = true) (h2 : ∀ c ∈ ws2, isSpace c = true)
    (hcore : ∀ c ∈ core, isSpace c = false) (hne : core ≠ []) :
    trimSpace (ws1 ++ core ++ ws2) = core := by
  obtain ⟨c, t, rfl⟩ := List.exists_cons_of_ne_nil hne
  unfold trimSpace
  rw [List.append_assoc, dropWhile_append_all _ _ _ h1, List.cons_append]
  rw [show List.dropWhile isSpace (c :: (t ++ ws2)) = c :: (t ++ ws2) from by
    simp [List.dropWhile, hcore c (by simp)]]
  rw [show (c :: (t ++ ws2)).reverse = ws2.reverse ++ (c :: t).reverse from by simp]
  rw [dropWhile_append_all _ _ _ (fun x hx => h2 x (List.mem_reverse.mp hx))]
  rw [dropWhile_eq_self_of_not _ _ (fun x hx => hcore x (List.mem_reverse.mp hx))]
  simp

theorem atoi_natDigitsBE (n : Nat) (hn : n ≤ maxInt64) :
    atoi (natDigitsBE n) = some ((n : Int)) := by
  obtain ⟨c, cs, hc⟩ := List.exists_cons_of_ne_nil (natDigitsBE_ne_nil n)
  obtain ⟨d, hd, hcd⟩ := natDigitsBE_mem n c (by rw [hc]; simp)
  have hminus : ¬(c = '-') := by rw [hcd]; exact (digit_props d hd).2.1
  have hplus : ¬(c = '+') := by rw [hcd]; exact (digit_props d hd).2.2
  have hp : parseMagnitude (c :: cs) = some n := by
    show parseDigits (c :: cs) 0 = some n
    rw [← hc, parseDigits_natDigitsBE n 0]
    simp
  rw [hc]
  show (if c = '-' then _ else if c = '+' then _ else
    match parseMagnitude (c :: cs) with
    | some v => if v ≤ maxInt64 then some ((v : Int)) else none
    | none => none) = some ((n : Int))
  rw [if_neg hminus, if_neg hplus, hp]
  show (if n ≤ maxInt64 then some ((n : Int)) else none) = some ((n : Int))
  rw [if_pos hn]

theorem saveHighScore_digits (N : Int) (h0 : 0 ≤ N) :
    saveHighScore N = natDigitsBE N.toNat := by
  unfold saveHighScore itoa
  rw [if_neg (by omega)]

theorem natDigitsBE_not_space (n : Nat) :
    ∀ c ∈ natDigitsBE n, isSpace c = false := by
  intro c hc
  obtain ⟨d, hd, rfl⟩ := natDigitsBE_mem _ c hc
  exact (digit_props d hd).1

theorem load_save_roundtrip (N : Int) (h0 : 0 ≤ N) (h1 : N < 2 ^ 63) :
    loadHighScore (some (saveHighScore N)) = N := by
  have htoNat : N.toNat ≤ maxInt64 := by unfold maxInt64; omega
  rw [saveHighScore_digits N h0]
  simp only [loadHighScore]
  rw [trimSpace_eq_self _ (natDigitsBE_not_space _), atoi_natDigitsBE _ htoNat]
  show (if ((N.toNat : Int)) < 0 then (0 : Int) else ((N.toNat : Int))) = N
  rw [if_neg (by omega)]
  omega

/-- Claim C9: saving a representable non-negative high score and loading it
back yields the same value; a missing/unreadable file, an unparsable file,
or a file holding a negative integer all load as 0; and loading ignores
surrounding whitespace in the file. -/
theorem highscore_spec :
    (∀ N : Int, 0 ≤ N → N < 2 ^ 63 → loadHighScore (some (saveHighScore N)) = N)
    ∧ loadHighScore Option.none = 0
    ∧ (∀ s, atoi (trimSpace s) = Option.none → loadHighScore (some s) = 0)
    ∧ (∀ s n, atoi (trimSpace s) = some n → n < 0 → loadHighScore (some s) = 0)
    ∧ (∀ (N : Int) (ws1 ws2 : List Char), 0 ≤ N → N < 2 ^ 63 →
        (∀ c ∈ ws1, isSpace c = true) → (∀ c ∈ ws2, isSpace c = true) →
        loadHighScore (some (ws1 ++ saveHighScore N ++ ws2)) = N) := by
  refine ⟨load_save_roundtrip, rfl, ?_, ?_, ?_⟩
  · intro s hs
    simp only [loadHighScore, hs]
  · intro s n hs hneg
    simp only [loadHighScore, hs]
    rw [if_pos hneg]
  · intro N ws1 ws2 h0 h1 hw1 hw2
    have htoNat : N.toNat ≤ maxInt64 := by unfold maxInt64; omega
    rw [saveHighScore_digits N h0]
    simp only [loadHighScore]
    rw [trimSpace_sandwich _ _ _ hw1 hw2 (natDigitsBE_not_space _)
        (natDigitsBE_ne_nil _),
      atoi_natDigitsBE _ htoNat]
    show (if ((N.toNat : Int)) < 0 then (0 : Int) else ((N.toNat : Int))) = N
    rw [if_neg (by omega)]
    omega

theorem highscore_spec_witness :
    loadHighScore (some (saveHighScore 42)) = 42 ∧
    loadHighScore Option.none = 0 ∧
    loadHighScore (some ['a']) = 0 ∧
    loadHighScore (some ['-', '5']) = 0 ∧
    loadHighScore (some ([' '] ++ saveHighScore 7 ++ [Char.ofNat 10])) = 7 :=
  ⟨highscore_spec.1 42 (by norm_num) (by norm_num),
   highscore_spec.2.1,
   highscore_spec.2.2.1 ['a'] (by decide),
   highscore_spec.2.2.2.1 ['-', '5'] (-5) (by decide) (by norm_num),
   highscore_spec.2.2.2.2 7 [' '] [Char.ofNat 10] (by norm_num) (by norm_num)
     (by decide) (by decide)⟩

end GopherDash
